import Mathlib

/-!
Shallow embedding of the Deception-Driven-Cloud-Auditing core
(src/audit_logger.py, src/monitor_service.py, src/app.py) and proofs
about its audit-trail and supervisor behaviour.

Modelling conventions:
* JSON files on disk are modelled by a FileState value: absent, corrupt
  (present but unreadable / unparseable), or present with parsed content.
* ISO-8601 timestamps carried inside events are kept as strings (the code
  sorts them as strings); the status record's start time, which the code
  parses back for uptime arithmetic, is modelled as an integer number of
  seconds, with isoformat/fromisoformat acting as the identity.
* I/O that can fail (open for write, unlink) is driven by explicit boolean
  oracles; a failed write is modelled as failing at open(), leaving the
  previous file content in place.
* Python int() is modelled on sign-plus-digits strings; whitespace and
  underscore digit separators accepted by int() never occur in the
  identifiers this code generates.
-/

namespace Audit

/-- Decimal digit character, as produced by Python str formatting. -/
def digitChar (d : Nat) : Char :=
  match d with
  | 0 => '0' | 1 => '1' | 2 => '2' | 3 => '3' | 4 => '4'
  | 5 => '5' | 6 => '6' | 7 => '7' | 8 => '8' | _ => '9'

/-- Fuel-driven decimal rendering of a natural number (most significant digit
first); with fuel greater than the number it agrees with decimal notation. -/
def toDecimalAux : Nat → Nat → List Char
  | 0, _ => []
  | fuel + 1, n =>
    if n < 10 then [digitChar n]
    else toDecimalAux fuel (n / 10) ++ [digitChar (n % 10)]

/-- Decimal rendering of a natural number, as Python str(n). -/
def toDecimal (n : Nat) : List Char := toDecimalAux (n + 1) n

/-- Zero-padding to width 3, as the Python format f-string with 03d. -/
def pad3 (n : Nat) : List Char :=
  List.replicate (3 - (toDecimal n).length) '0' ++ toDecimal n

/-- Attack identifier string, as the source's ATK_ format of the counter. -/
def mkAttackId (n : Nat) : String := ⟨'A' :: 'T' :: 'K' :: '_' :: pad3 n⟩

/-- Python str.split on a single separator character (keeps empty pieces). -/
def splitChar (sep : Char) : List Char → List (List Char)
  | [] => [[]]
  | c :: cs =>
    match splitChar sep cs with
    | [] => if c = sep then [[], []] else [[c]]
    | h :: t => if c = sep then [] :: h :: t else (c :: h) :: t

/-- Numeric value of a decimal digit character. -/
def digitVal (c : Char) : Nat := c.toNat - 48

/-- Python int() on an unsigned decimal digit string. -/
def parseDigits (cs : List Char) : Option Nat :=
  if cs.isEmpty then none
  else if cs.all Char.isDigit then
    some (cs.foldl (fun a c => a * 10 + digitVal c) 0)
  else none

/-- Python int() restricted to an optional minus sign plus digits. -/
def parseInt (cs : List Char) : Option Int :=
  match cs with
  | '-' :: rest => (parseDigits rest).map (fun n => -(n : Int))
  | _ => (parseDigits cs).map (fun n => (n : Int))

/-- Numeric part of an attack identifier, as the reseeding loop in
the source parses it: startswith ATK_, split on underscore, int(). -/
def parseAttackIdNum (s : String) : Option Int :=
  if ['A', 'T', 'K', '_'].isPrefixOf s.data then
    match (splitChar '_' s.data)[1]? with
    | some t => parseInt t
    | none => none
  else none

/-- State of a file on disk: missing, present but unreadable or unparseable,
or present with parsed content. -/
inductive FileState (α : Type) where
  | absent
  | corrupt
  | present (data : α)
deriving DecidableEq

/-- Data model for attack events, field for field from the source dataclass. -/
structure AttackEvent where
  timestamp : String
  event_type : String
  file_path : String
  filename : String
  attack_id : String
  process_name : String
  process_id : String
  username : String
  command_line : String
  ip_address : String
deriving DecidableEq

/-- Data model for system status, field for field from the source dataclass;
start_time is an ISO string in the source, modelled as epoch seconds. -/
structure SystemStatus where
  status : String
  last_attack : Option String
  total_attacks : Int
  monitoring_active : Bool
  uptime_seconds : Int
  start_time : Int
deriving DecidableEq

/-- Persistent plus in-memory state of one AuditLogger instance. -/
structure LoggerState where
  attacksFile : FileState (List AttackEvent)
  statusFile : FileState SystemStatus
  attack_counter : Nat
  system_start_time : Int
deriving DecidableEq

/-- Maximum over the numeric parts of the identifiers found in a store, with
floor 0, exactly as the loop in the counter-reseeding code computes it. -/
def maxIdNum (l : List AttackEvent) : Int :=
  l.foldl
    (fun m a =>
      match parseAttackIdNum a.attack_id with
      | some n => max m n
      | none => m) 0

/-- Counter reseeding at construction: 1 when the store is absent, corrupt or
empty, otherwise the maximum parsed identifier plus one (the maximum has
floor 0, so the sum is positive and the Nat view is exact). -/
def getNextAttackCounter (store : FileState (List AttackEvent)) : Nat :=
  match store with
  | .present l => if l.isEmpty then 1 else (maxIdNum l + 1).toNat
  | _ => 1

/-- Fresh SAFE status record as built by the source's default branches. -/
def defaultStatus (startTime : Int) : SystemStatus :=
  ⟨"SAFE", none, 0, false, 0, startTime⟩

/-- Loading the status record: present content, else the default SAFE record
(the source returns the default both when the file is missing and when
reading it raises). -/
def loadSystemStatus (st : LoggerState) : SystemStatus :=
  match st.statusFile with
  | .present s => s
  | _ => defaultStatus st.system_start_time

/-- Saving the status record; a write failure is swallowed by the source
(printed only), modelled as failing at open() with the old content kept. -/
def saveSystemStatus (st : LoggerState) (ok : Bool) (s : SystemStatus) :
    LoggerState :=
  if ok then { st with statusFile := .present s } else st

/-- Constructing an AuditLogger: write the initial SAFE status only when the
status file does not exist, then seed the attack counter from the store. -/
def initLogger (attacks : FileState (List AttackEvent))
    (status : FileState SystemStatus) (startTime : Int) (saveOk : Bool) :
    LoggerState :=
  let st : LoggerState := ⟨attacks, status, 1, startTime⟩
  let st :=
    match status with
    | .absent => saveSystemStatus st saveOk (defaultStatus startTime)
    | _ => st
  { st with attack_counter := getNextAttackCounter attacks }

/-- The update_system_status method: load, overwrite the status field, on a
truthy last-attack time also record it and bump the total, recompute uptime,
save (write failures swallowed). -/
def update_system_status (st : LoggerState) (saveOk : Bool) (status : String)
    (last_attack_time : Option String) (now : Int) : LoggerState :=
  let cur := loadSystemStatus st
  let cur := { cur with status := status }
  let cur :=
    match last_attack_time with
    | some t =>
      if t.isEmpty then cur
      else { cur with last_attack := some t,
                      total_attacks := cur.total_attacks + 1 }
    | none => cur
  let cur := { cur with uptime_seconds := now - cur.start_time }
  saveSystemStatus st saveOk cur

/-- The get_system_status method: load (defaulting on failure), recompute
uptime in real time from the loaded start time. -/
def get_system_status (st : LoggerState) (now : Int) : SystemStatus :=
  let s := loadSystemStatus st
  { s with uptime_seconds := now - s.start_time }

/-- Basename of a path, as Path(p).name for slash-separated paths. -/
def basename (p : String) : String :=
  ⟨(splitChar '/' p.data).getLastD []⟩

/-- Process information record, as the dict the source builds. -/
structure ProcessInfo where
  process_name : String
  process_id : String
  username : String
  command_line : String
deriving DecidableEq

/-- The all-Unknown fallback dict used when process introspection fails. -/
def unknownProcessInfo : ProcessInfo := ⟨"Unknown", "Unknown", "Unknown", "Unknown"⟩

/-- One call to log_attack_event, with the ambient data the method reads from
the environment (clock, process introspection result, I/O outcomes) passed
explicitly. A process_info of none models both an omitted argument with
failing psutil introspection and the resulting all-Unknown fields. -/
structure RecordInput where
  event_type : String
  file_path : String
  process_info : Option ProcessInfo
  ip_address : Option String
  nowTs : String
  now : Int
  saveEventOk : Bool
  saveStatusOk : Bool

/-- The event object built at the top of log_attack_event, before any write:
its identifier is the ATK_ rendering of the current shared counter. -/
def buildEvent (st : LoggerState) (i : RecordInput) : AttackEvent :=
  let pi := i.process_info.getD unknownProcessInfo
  { timestamp := i.nowTs
    event_type := i.event_type
    file_path := i.file_path
    filename := basename i.file_path
    attack_id := mkAttackId st.attack_counter
    process_name := pi.process_name
    process_id := pi.process_id
    username := pi.username
    command_line := pi.command_line
    ip_address := i.ip_address.getD "127.0.0.1" }

/-- The save_attack_event method: read the whole store (raising on a corrupt
file), append, rewrite; it re-raises on any failure. -/
def save_attack_event (st : LoggerState) (ok : Bool) (e : AttackEvent) :
    Except Unit LoggerState :=
  match st.attacksFile with
  | .corrupt => .error ()
  | .absent =>
    if ok then .ok { st with attacksFile := .present [e] } else .error ()
  | .present l =>
    if ok then .ok { st with attacksFile := .present (l ++ [e]) } else .error ()

/-- Increment of the shared in-memory identifier counter. -/
def bumpCounter (st : LoggerState) : LoggerState :=
  { st with attack_counter := st.attack_counter + 1 }

/-- The log_attack_event method: build the event, append it to the store
(re-raising on failure, with the state carried in the error), flip the
status to UNDER_ATTACK, bump the counter, return the event. -/
def log_attack_event (st : LoggerState) (i : RecordInput) :
    Except LoggerState (AttackEvent × LoggerState) :=
  let e := buildEvent st i
  match save_attack_event st i.saveEventOk e with
  | .error _ => .error st
  | .ok st1 =>
    let st2 := update_system_status st1 i.saveStatusOk "UNDER_ATTACK"
      (some e.timestamp) i.now
    .ok (e, bumpCounter st2)

/-- The state an instance is left in after log_attack_event, whether the call
completed or raised. -/
def stateAfterRecord (st : LoggerState) (i : RecordInput) : LoggerState :=
  match log_attack_event st i with
  | .ok (_, st1) => st1
  | .error st1 => st1

/-- Descending-timestamp comparison used to model sort with reverse=True. -/
def tsDescLe (a b : AttackEvent) : Bool := decide (b.timestamp ≤ a.timestamp)

/-- Stable insertion into a descending-by-timestamp sorted list. -/
def insertDesc (x : AttackEvent) : List AttackEvent → List AttackEvent
  | [] => [x]
  | y :: ys => if tsDescLe x y then x :: y :: ys else y :: insertDesc x ys

/-- Stable sort by timestamp descending; all stable sorts on a total key
order agree, so this models the source's sort with reverse=True. -/
def sortDesc : List AttackEvent → List AttackEvent
  | [] => []
  | x :: xs => insertDesc x (sortDesc xs)

/-- Python list slicing l[:i], including negative-index semantics. -/
def pySliceTo {α : Type} (l : List α) (i : Int) : List α :=
  if 0 ≤ i then l.take i.toNat else l.take (l.length - i.natAbs)

/-- The get_recent_attacks method: empty on a missing store, empty when the
read raises, otherwise the descending-sorted list sliced to the limit.
No clamping or defaulting of the limit happens here. -/
def get_recent_attacks (st : LoggerState) (limit : Int) : List AttackEvent :=
  match st.attacksFile with
  | .present l => pySliceTo (sortDesc l) limit
  | _ => []

/-- The get_all_attacks method: the stored list, empty on absence or a
failed read. -/
def get_all_attacks (st : LoggerState) : List AttackEvent :=
  match st.attacksFile with
  | .present l => l
  | _ => []

/-- Tail of reset_system once the store file is gone: write the fresh SAFE
status (write failures swallowed), reset counter and start time, report
success. -/
def resetTail (st : LoggerState) (saveOk : Bool) (now : Int) :
    Bool × LoggerState :=
  let st := saveSystemStatus st saveOk (defaultStatus now)
  (true, { st with attack_counter := 1, system_start_time := now })

/-- The reset_system method: unlink the store file when it exists (a failing
unlink raises, caught by the handler which returns false with nothing else
mutated), then reinitialize status, counter and start time. -/
def reset_system (st : LoggerState) (unlinkOk saveOk : Bool) (now : Int) :
    Bool × LoggerState :=
  match st.attacksFile with
  | .absent => resetTail st saveOk now
  | _ =>
    if unlinkOk then resetTail { st with attacksFile := .absent } saveOk now
    else (false, st)

/-- The set_monitoring_status method: load, flip only the monitoring flag,
save (write failures swallowed). -/
def set_monitoring_status (st : LoggerState) (saveOk : Bool) (active : Bool) :
    LoggerState :=
  let cur := loadSystemStatus st
  saveSystemStatus st saveOk { cur with monitoring_active := active }

/-- Effective limit used by the /api/attacks route: missing or non-numeric
query values fall back to 10, and so does any value outside 1..100. -/
def apiRecentLimit (limitParam : Option Int) : Int :=
  match limitParam with
  | none => 10
  | some v => if v < 1 ∨ v > 100 then 10 else v

/-- The /api/attacks route behaviour: clamp or default the limit in the API
layer, then delegate to get_recent_attacks. -/
def apiGetRecent (st : LoggerState) (limitParam : Option Int) :
    List AttackEvent :=
  get_recent_attacks st (apiRecentLimit limitParam)

/-- Append step of a completed call (write succeeds), for interleaving two
concurrent calls at the granularity the interpreter allows. -/
def stepAppend (st : LoggerState) (e : AttackEvent) : LoggerState :=
  match save_attack_event st true e with
  | .ok st1 => st1
  | .error _ => st

/-- Status-update step of a completed call. -/
def stepStatus (st : LoggerState) (e : AttackEvent) (now : Int) : LoggerState :=
  update_system_status st true "UNDER_ATTACK" (some e.timestamp) now

/-- One possible interleaving of two concurrent log_attack_event calls on the
same instance: both threads evaluate the id f-string from the shared counter
before either thread reaches the counter increment; each call then completes
its writes. No lock in the source prevents this schedule. -/
def interleavedDoubleRecord (st : LoggerState) (i j : RecordInput) :
    AttackEvent × AttackEvent × LoggerState :=
  let eA := buildEvent st i
  let eB := buildEvent st j
  let stA := bumpCounter (stepStatus (stepAppend st eA) eA i.now)
  let stB := bumpCounter (stepStatus (stepAppend stA eB) eB j.now)
  (eA, eB, stB)

/-- A serialized sequence of log_attack_event calls; none when some call in
the sequence raises, otherwise the events in completion order and the final
state. -/
def runCalls (st : LoggerState) :
    List RecordInput → Option (List AttackEvent × LoggerState)
  | [] => some ([], st)
  | i :: is =>
    match log_attack_event st i with
    | .error _ => none
    | .ok (e, st1) =>
      match runCalls st1 is with
      | some (es, st2) => some (e :: es, st2)
      | none => none

/-- State of the MonitorService supervisor, the fields the lifecycle and
health logic read and write; observer_alive models observer is not None
and observer.is_alive(). -/
structure MonitorState where
  is_monitoring : Bool
  observer_alive : Bool
  restart_count : Nat
  max_restarts : Nat
  restart_delay : Nat
  last_error : Option String
  error_count : Nat
deriving DecidableEq

/-- Supervisor field defaults from the constructor. -/
def initMonitorState : MonitorState :=
  { is_monitoring := false
    observer_alive := false
    restart_count := 0
    max_restarts := 5
    restart_delay := 1
    last_error := none
    error_count := 0 }

/-- The is_running method: monitoring flag set and a live observer. -/
def monitorIsRunning (s : MonitorState) : Bool :=
  s.is_monitoring && s.observer_alive

/-- Python truthiness of an optional string: None and the empty string are
falsy. -/
def pyTruthyStr : Option String → Bool
  | none => false
  | some s => !s.isEmpty

/-- The get_health_status method, branch for branch from the source:
stopped, then degraded on a truthy last error, then unhealthy on error
count above 3 or a dead watch, else healthy. -/
def get_health_status (s : MonitorState) : String :=
  if !s.is_monitoring then "stopped"
  else if pyTruthyStr s.last_error then "degraded"
  else if 3 < s.error_count then "unhealthy"
  else if !(monitorIsRunning s) then "unhealthy"
  else "healthy"

/-- Effect of stop_monitoring on the supervisor fields the restart logic
reads: monitoring off, observer handles cleared. -/
def stopEffect (s : MonitorState) : MonitorState :=
  { s with is_monitoring := false, observer_alive := false }

/-- Effect of start_monitoring, abstracted over its outcome: success sets
the monitoring flag, attaches a live observer and clears the error state;
failure leaves the service stopped with a recorded last error. -/
def startEffect (s : MonitorState) (startOk : Bool) : MonitorState :=
  if startOk then
    { s with is_monitoring := true, observer_alive := true,
             last_error := none, error_count := 0 }
  else { s with is_monitoring := false, last_error := some "start failed" }

/-- Outcome of one restart_monitoring call: its boolean result, whether a
start attempt was made at all, and the resulting supervisor state. -/
structure RestartResult where
  success : Bool
  startAttempted : Bool
  state : MonitorState
deriving DecidableEq

/-- The restart_monitoring method: an exhausted budget returns false up
front without stopping or starting anything; otherwise stop, delay, start,
and only a successful start increments the restart count and doubles the
backoff delay capped at 60. -/
def restart_monitoring (s : MonitorState) (startOk : Bool) : RestartResult :=
  if s.max_restarts ≤ s.restart_count then ⟨false, false, s⟩
  else
    let s1 := stopEffect s
    let s2 := startEffect s1 startOk
    if startOk then
      ⟨true, true,
        { s2 with restart_count := s.restart_count + 1,
                  restart_delay := min (s.restart_delay * 2) 60 }⟩
    else ⟨false, true, s2⟩

/-- Numeric reading of an event's identifier (0 when unparseable), the
order in which the reseeding code compares identifiers. -/
def eventIdNum (e : AttackEvent) : Int :=
  (parseAttackIdNum e.attack_id).getD 0

/-- Concrete event value used to instantiate theorems at specific inputs. -/
def sampleEvent (ts id : String) : AttackEvent :=
  ⟨ts, "file_accessed", "/tokens/passwords.txt", "passwords.txt", id,
   "python", "123", "root", "python app.py", "127.0.0.1"⟩

/-- Concrete record-call input used to instantiate theorems. -/
def sampleInput (path ts : String) (evOk stOk : Bool) : RecordInput :=
  { event_type := "file_accessed"
    file_path := path
    process_info := none
    ip_address := none
    nowTs := ts
    now := 0
    saveEventOk := evOk
    saveStatusOk := stOk }

/-- The first event recorded on a freshly constructed instance by the
concrete call used in instantiations below. -/
def recordedSample : AttackEvent :=
  ⟨"ta", "file_accessed", "/t/a.txt", "a.txt", "ATK_001",
   "Unknown", "Unknown", "Unknown", "Unknown", "127.0.0.1"⟩

/-- The state of a freshly constructed instance after that one call. -/
def recordedSampleState : LoggerState :=
  ⟨.present [recordedSample],
   .present ⟨"UNDER_ATTACK", some "ta", 1, false, 0, 0⟩, 2, 0⟩

/-! Identifier round-trip: parsing the rendered ATK_ identifier recovers the
counter value. -/

theorem digitChar_isDigit (d : Nat) : (digitChar d).isDigit = true := by
  unfold digitChar
  split <;> decide

theorem digitVal_digitChar (d : Nat) (h : d < 10) :
    digitVal (digitChar d) = d := by
  interval_cases d <;> decide

theorem toDecimalAux_spec (fuel : Nat) : ∀ n : Nat, n < fuel →
    (toDecimalAux fuel n).all Char.isDigit = true ∧
    toDecimalAux fuel n ≠ [] ∧
    (toDecimalAux fuel n).foldl (fun a c => a * 10 + digitVal c) 0 = n := by
  induction fuel with
  | zero => intro n h; omega
  | succ fuel ih =>
    intro n h
    by_cases h10 : n < 10
    · refine ⟨?_, ?_, ?_⟩ <;>
        simp [toDecimalAux, h10, digitChar_isDigit, digitVal_digitChar n h10]
    · have hdiv : n / 10 < fuel := by
        have h1 : n / 10 < n := Nat.div_lt_self (by omega) (by omega)
        omega
      obtain ⟨hall, hne, hval⟩ := ih (n / 10) hdiv
      refine ⟨?_, ?_, ?_⟩
      · simp only [toDecimalAux, if_neg h10, List.all_append]
        simp [hall, digitChar_isDigit]
      · simp [toDecimalAux, if_neg h10]
      · simp only [toDecimalAux, if_neg h10, List.foldl_append, hval,
          List.foldl_cons, List.foldl_nil]
        rw [digitVal_digitChar _ (Nat.mod_lt n (by omega))]
        omega

theorem toDecimal_spec (n : Nat) :
    (toDecimal n).all Char.isDigit = true ∧
    toDecimal n ≠ [] ∧
    (toDecimal n).foldl (fun a c => a * 10 + digitVal c) 0 = n :=
  toDecimalAux_spec (n + 1) n (Nat.lt_succ_self n)

theorem foldl_digits_replicate_zero (k : Nat) :
    (List.replicate k '0').foldl (fun a c => a * 10 + digitVal c) 0 = 0 := by
  induction k with
  | zero => rfl
  | succ k ih => simpa [List.replicate_succ, digitVal] using ih

theorem pad3_all_digits (n : Nat) : (pad3 n).all Char.isDigit = true := by
  have h := (toDecimal_spec n).1
  simp only [pad3, List.all_append, h, Bool.and_true, List.all_eq_true]
  intro c hc
  rw [List.eq_of_mem_replicate hc]
  decide

theorem pad3_ne_nil (n : Nat) : pad3 n ≠ [] := by
  have h := (toDecimal_spec n).2.1
  simp [pad3, h]

theorem pad3_val (n : Nat) :
    (pad3 n).foldl (fun a c => a * 10 + digitVal c) 0 = n := by
  have h := (toDecimal_spec n).2.2
  have hz := foldl_digits_replicate_zero (3 - (toDecimal n).length)
  calc (pad3 n).foldl (fun a c => a * 10 + digitVal c) 0
      = (toDecimal n).foldl (fun a c => a * 10 + digitVal c)
          ((List.replicate (3 - (toDecimal n).length) '0').foldl
            (fun a c => a * 10 + digitVal c) 0) := by
        simp [pad3, List.foldl_append]
    _ = n := by rw [hz, h]

theorem parseDigits_pad3 (n : Nat) : parseDigits (pad3 n) = some n := by
  have h1 := pad3_all_digits n
  have h2 := pad3_ne_nil n
  have h3 := pad3_val n
  simp only [parseDigits]
  rw [if_neg (by simpa [List.isEmpty_iff] using h2), if_pos h1, h3]

theorem parseInt_pad3 (n : Nat) : parseInt (pad3 n) = some (n : Int) := by
  have h1 := pad3_all_digits n
  have h2 := parseDigits_pad3 n
  cases hp : pad3 n with
  | nil => exact absurd hp (pad3_ne_nil n)
  | cons c cs =>
    have hc : c.isDigit = true := by
      rw [hp] at h1
      simp [List.all_eq_true] at h1
      exact h1.1
    have hne : c ≠ '-' := by
      intro hceq
      rw [hceq] at hc
      exact absurd hc (by decide)
    rw [hp] at h2
    unfold parseInt
    split
    · rename_i heq
      exact absurd (List.head_eq_of_cons_eq heq.symm) fun h => hne h.symm
    · rw [h2]
      rfl

theorem splitChar_no_sep (sep : Char) (l : List Char)
    (h : ∀ c ∈ l, c ≠ sep) : splitChar sep l = [l] := by
  induction l with
  | nil => rfl
  | cons c cs ih =>
    have hc : c ≠ sep := h c (List.mem_cons_self c cs)
    have hrest : splitChar sep cs = [cs] :=
      ih fun x hx => h x (List.mem_cons_of_mem c hx)
    simp [splitChar, hrest, hc]

theorem splitChar_atk (ds : List Char) (h : ∀ c ∈ ds, c ≠ '_') :
    splitChar '_' ('A' :: 'T' :: 'K' :: '_' :: ds) = [['A', 'T', 'K'], ds] := by
  have hds := splitChar_no_sep '_' ds h
  simp [splitChar, hds]

theorem parse_mkAttackId (n : Nat) :
    parseAttackIdNum (mkAttackId n) = some (n : Int) := by
  have hdig := pad3_all_digits n
  have hnous : ∀ c ∈ pad3 n, c ≠ '_' := by
    simp only [List.all_eq_true] at hdig
    intro c hc hceq
    have := hdig c hc
    rw [hceq] at this
    exact absurd this (by decide)
  have hsplit := splitChar_atk (pad3 n) hnous
  unfold parseAttackIdNum mkAttackId
  simp only [String.data]
  rw [if_pos (by simp [List.isPrefixOf])]
  rw [hsplit]
  simp [parseInt_pad3 n]

theorem mkAttackId_injective : Function.Injective mkAttackId := by
  intro m n h
  have hm := parse_mkAttackId m
  have hn := parse_mkAttackId n
  rw [h, hn] at hm
  simpa using hm.symm

/-! Counter reseeding: the seed is the maximum persisted identifier plus one,
or 1 on an empty, absent or corrupt store. -/

theorem le_foldl_max (ns : List Nat) : ∀ a : Nat, a ≤ ns.foldl max a := by
  induction ns with
  | nil => intro a; simp
  | cons n ns ih =>
    intro a
    exact le_trans (le_max_left a n) (ih (max a n))

theorem mem_le_foldl_max (ns : List Nat) (m : Nat) :
    m ∈ ns → ∀ a : Nat, m ≤ ns.foldl max a := by
  induction ns with
  | nil => intro h; cases h
  | cons n ns ih =>
    intro hm a
    rcases List.mem_cons.mp hm with h | h
    · subst h
      exact le_trans (le_max_right a m) (le_foldl_max ns (max a m))
    · exact ih h (max a n)

theorem foldl_max_le (ns : List Nat) (m : Nat) :
    (∀ k ∈ ns, k ≤ m) → ∀ a : Nat, a ≤ m → ns.foldl max a ≤ m := by
  induction ns with
  | nil => intro _ a ha; simpa
  | cons n ns ih =>
    intro h a ha
    exact ih (fun k hk => h k (List.mem_cons_of_mem n hk)) (max a n)
      (max_le ha (h n (List.mem_cons_self n ns)))

theorem foldl_max_eq (ns : List Nat) (m : Nat) (hmem : m ∈ ns)
    (hmax : ∀ k ∈ ns, k ≤ m) : ns.foldl max 0 = m :=
  Nat.le_antisymm (foldl_max_le ns m hmax 0 (Nat.zero_le m))
    (mem_le_foldl_max ns m hmem 0)

theorem foldIdNum_mapped :
    ∀ (l : List AttackEvent) (ns : List Nat) (a : Nat),
    l.map (fun e => e.attack_id) = ns.map mkAttackId →
    l.foldl
      (fun m e =>
        match parseAttackIdNum e.attack_id with
        | some n => max m n
        | none => m) (a : Int) = ((ns.foldl max a : Nat) : Int) := by
  intro l
  induction l with
  | nil =>
    intro ns a h
    have hns : ns = [] := by
      cases ns with
      | nil => rfl
      | cons n ns => simp at h
    subst hns
    rfl
  | cons e l ih =>
    intro ns a h
    cases ns with
    | nil => simp at h
    | cons n ns =>
      simp only [List.map_cons, List.cons.injEq] at h
      obtain ⟨hid, hrest⟩ := h
      simp only [List.foldl_cons, hid, parse_mkAttackId]
      rw [show max (a : Int) (n : Int) = ((max a n : Nat) : Int) by
        exact_mod_cast (Nat.cast_max a n).symm]
      exact ih ns (max a n) hrest

theorem maxIdNum_mapped (l : List AttackEvent) (ns : List Nat)
    (h : l.map (fun e => e.attack_id) = ns.map mkAttackId) :
    maxIdNum l = ((ns.foldl max 0 : Nat) : Int) :=
  foldIdNum_mapped l ns 0 h

/-- C2: constructing an AuditLogger seeds its identifier counter from the
persisted store: 1 when the store is absent, corrupt or empty, and the
maximum identifier found plus one when the store holds identifiers in the
generated ATK_ form. -/
theorem claim_C2_seed (attacks : FileState (List AttackEvent))
    (status : FileState SystemStatus) (startTime : Int) (saveOk : Bool)
    (l : List AttackEvent) (ns : List Nat) (m : Nat)
    (hids : l.map (fun e => e.attack_id) = ns.map mkAttackId)
    (hmem : m ∈ ns) (hmax : ∀ k ∈ ns, k ≤ m) :
    (initLogger attacks status startTime saveOk).attack_counter
      = getNextAttackCounter attacks ∧
    getNextAttackCounter .absent = 1 ∧
    getNextAttackCounter .corrupt = 1 ∧
    getNextAttackCounter (.present ([] : List AttackEvent)) = 1 ∧
    getNextAttackCounter (.present l) = m + 1 := by
  refine ⟨?_, rfl, rfl, rfl, ?_⟩
  · cases status <;> cases saveOk <;> simp [initLogger, saveSystemStatus]
  · have hne : ¬ l.isEmpty := by
      cases l with
      | nil =>
        cases ns with
        | nil => cases hmem
        | cons n ns => simp at hids
      | cons e l => simp
    have hfold : ns.foldl max 0 = m := foldl_max_eq ns m hmem hmax
    simp only [getNextAttackCounter, if_neg hne,
      maxIdNum_mapped l ns hids, hfold]
    omega

/-- Witness for C2 at a concrete two-event store whose maximum identifier
is 3: the recreated instance allocates 4 next. -/
theorem claim_C2_seed_witness :
    ([sampleEvent "t1" (mkAttackId 3), sampleEvent "t2" (mkAttackId 1)].map
        (fun e => e.attack_id) = ([3, 1] : List Nat).map mkAttackId) ∧
    (3 : Nat) ∈ ([3, 1] : List Nat) ∧ (∀ k ∈ ([3, 1] : List Nat), k ≤ 3) ∧
    getNextAttackCounter
      (.present [sampleEvent "t1" (mkAttackId 3), sampleEvent "t2" (mkAttackId 1)])
      = 4 := by
  refine ⟨by decide, by decide, by decide, ?_⟩
  exact (claim_C2_seed .absent .absent 0 true
    [sampleEvent "t1" (mkAttackId 3), sampleEvent "t2" (mkAttackId 1)]
    [3, 1] 3 (by decide) (by decide) (by decide)).2.2.2.2

/-! Identifier allocation across sequences of RecordEvent calls. -/

theorem get_all_congr (st1 st2 : LoggerState)
    (h : st1.attacksFile = st2.attacksFile) :
    get_all_attacks st1 = get_all_attacks st2 := by
  unfold get_all_attacks
  rw [h]

theorem save_ok_spec (st : LoggerState) (ok : Bool) (e : AttackEvent)
    (st1 : LoggerState) (h : save_attack_event st ok e = .ok st1) :
    st1.attack_counter = st.attack_counter ∧
    st1.statusFile = st.statusFile ∧
    st1.system_start_time = st.system_start_time ∧
    get_all_attacks st1 = get_all_attacks st ++ [e] := by
  unfold save_attack_event at h
  cases hA : st.attacksFile <;> rw [hA] at h <;> cases ok <;> simp at h
  · subst h
    exact ⟨rfl, rfl, rfl, by simp [get_all_attacks, hA]⟩
  · subst h
    exact ⟨rfl, rfl, rfl, by simp [get_all_attacks, hA]⟩

theorem update_fields (st : LoggerState) (ok : Bool) (s : String)
    (t : Option String) (now : Int) :
    (update_system_status st ok s t now).attack_counter = st.attack_counter ∧
    (update_system_status st ok s t now).attacksFile = st.attacksFile ∧
    (update_system_status st ok s t now).system_start_time
      = st.system_start_time := by
  unfold update_system_status saveSystemStatus
  cases ok <;> simp

theorem log_ok_spec (st : LoggerState) (i : RecordInput) (e : AttackEvent)
    (st1 : LoggerState) (h : log_attack_event st i = .ok (e, st1)) :
    e.attack_id = mkAttackId st.attack_counter ∧
    st1.attack_counter = st.attack_counter + 1 ∧
    get_all_attacks st1 = get_all_attacks st ++ [e] := by
  simp only [log_attack_event] at h
  split at h
  · simp at h
  · rename_i stA hs
    simp only [Except.ok.injEq, Prod.mk.injEq] at h
    obtain ⟨he, hst⟩ := h
    subst he
    subst hst
    obtain ⟨hc, hsf, hss, hall⟩ := save_ok_spec st i.saveEventOk _ stA hs
    obtain ⟨huc, huf, hus⟩ := update_fields stA i.saveStatusOk "UNDER_ATTACK"
      (some (buildEvent st i).timestamp) i.now
    refine ⟨rfl, ?_, ?_⟩
    · simp [bumpCounter, huc, hc]
    · rw [get_all_congr _ _ (show (bumpCounter _).attacksFile = _ from huf),
        hall]

theorem runCalls_spec (is : List RecordInput) :
    ∀ (st : LoggerState) (es : List AttackEvent) (st1 : LoggerState),
    runCalls st is = some (es, st1) →
    (∀ k (hk : k < es.length),
        (es.get ⟨k, hk⟩).attack_id = mkAttackId (st.attack_counter + k)) ∧
    get_all_attacks st1 = get_all_attacks st ++ es ∧
    st1.attack_counter = st.attack_counter + es.length := by
  induction is with
  | nil =>
    intro st es st1 h
    simp only [runCalls, Option.some.injEq, Prod.mk.injEq] at h
    obtain ⟨hes, hst⟩ := h
    subst hes
    subst hst
    exact ⟨fun k hk => absurd hk (by simp), by simp, by simp⟩
  | cons i is ih =>
    intro st es st1 h
    simp only [runCalls] at h
    split at h
    · simp at h
    · rename_i e stA hl
      split at h
      case _ =>
        rename_i es2 st2 hr
        simp only [Option.some.injEq, Prod.mk.injEq] at h
        obtain ⟨hes, hst⟩ := h
        subst hes
        subst hst
        obtain ⟨hid, hcnt, hall⟩ := log_ok_spec st i e stA hl
        obtain ⟨ihidx, ihall, ihcnt⟩ := ih stA es2 st2 hr
        refine ⟨?_, ?_, ?_⟩
        · intro k hk
          cases k with
          | zero => simpa using hid
          | succ k =>
            have hk2 : k < es2.length := by
              simpa [List.length_cons] using hk
            have hx := ihidx k hk2
            have : (e :: es2).get ⟨k + 1, hk⟩ = es2.get ⟨k, hk2⟩ := rfl
            rw [this, hx, hcnt]
            congr 1
            omega
        · rw [ihall, hall, List.append_assoc]
          rfl
        · rw [ihcnt, hcnt, List.length_cons]
          omega
      case _ => simp at h

/-- C1 (amended): for serialized sequences of completed RecordEvent calls
the allocated identifiers are the consecutive renderings of the counter,
hence pairwise distinct, strictly increasing in call-completion order, and
appended to the persisted store in that order. -/
theorem claim_C1_serialized (st : LoggerState) (is : List RecordInput)
    (es : List AttackEvent) (st1 : LoggerState)
    (h : runCalls st is = some (es, st1)) :
    (∀ k (hk : k < es.length),
        (es.get ⟨k, hk⟩).attack_id = mkAttackId (st.attack_counter + k)) ∧
    es.Pairwise (fun a b => a.attack_id ≠ b.attack_id) ∧
    es.Pairwise (fun a b => eventIdNum a < eventIdNum b) ∧
    get_all_attacks st1 = get_all_attacks st ++ es ∧
    st1.attack_counter = st.attack_counter + es.length := by
  obtain ⟨hidx, hall, hcnt⟩ := runCalls_spec is st es st1 h
  refine ⟨hidx, ?_, ?_, hall, hcnt⟩
  · rw [List.pairwise_iff_get]
    intro a b hab
    rw [hidx a.1 a.2, hidx b.1 b.2]
    intro heq
    have := mkAttackId_injective heq
    have hab2 : a.1 < b.1 := hab
    omega
  · rw [List.pairwise_iff_get]
    intro a b hab
    rw [eventIdNum, eventIdNum, hidx a.1 a.2, hidx b.1 b.2,
      parse_mkAttackId, parse_mkAttackId]
    have hab2 : a.1 < b.1 := hab
    simp only [Option.getD_some]
    exact_mod_cast Nat.add_lt_add_left hab2 st.attack_counter

/-- Witness for the serialized RecordEvent theorem: one completed call on a
fresh instance allocates ATK_001 and leaves the counter at 2. -/
theorem claim_C1_serialized_witness :
    (runCalls (initLogger .absent .absent 0 true)
        [sampleInput "/t/a.txt" "ta" true true]
      = some ([recordedSample], recordedSampleState)) ∧
    ([recordedSample].Pairwise (fun a b => a.attack_id ≠ b.attack_id) ∧
     recordedSampleState.attack_counter
       = (initLogger .absent .absent 0 true).attack_counter + 1) := by
  have h := claim_C1_serialized (initLogger .absent .absent 0 true)
    [sampleInput "/t/a.txt" "ta" true true] [recordedSample]
    recordedSampleState (by decide)
  exact ⟨by decide, h.2.1, by simpa using h.2.2.2.2⟩

/-- C1 counterexample: the source takes no lock around log_attack_event, so
two concurrent calls can both render the shared counter into their id
f-string before either executes the counter increment; this interleaving
completes both calls yet allocates ATK_001 twice, leaving the persisted
store with two distinct events whose identifiers are not pairwise
distinct. -/
theorem claim_C1_counterexample :
    ((interleavedDoubleRecord (initLogger .absent .absent 0 true)
        (sampleInput "/t/a.txt" "ta" true true)
        (sampleInput "/t/b.txt" "tb" true true)).1.attack_id = "ATK_001" ∧
     (interleavedDoubleRecord (initLogger .absent .absent 0 true)
        (sampleInput "/t/a.txt" "ta" true true)
        (sampleInput "/t/b.txt" "tb" true true)).2.1.attack_id = "ATK_001") ∧
    ¬ (get_all_attacks
        (interleavedDoubleRecord (initLogger .absent .absent 0 true)
          (sampleInput "/t/a.txt" "ta" true true)
          (sampleInput "/t/b.txt" "tb" true true)).2.2).Pairwise
        (fun a b => a.attack_id ≠ b.attack_id) := by
  decide

/-! Status invariant: UNDER_ATTACK exactly when attacks have been counted
since the last reset. -/

theorem loadSystemStatus_congr (st1 st2 : LoggerState)
    (h1 : st1.statusFile = st2.statusFile)
    (h2 : st1.system_start_time = st2.system_start_time) :
    loadSystemStatus st1 = loadSystemStatus st2 := by
  unfold loadSystemStatus
  rw [h1, h2]

theorem loadSystemStatus_bump (st : LoggerState) :
    loadSystemStatus (bumpCounter st) = loadSystemStatus st :=
  loadSystemStatus_congr _ _ rfl rfl

theorem log_error_spec (st : LoggerState) (i : RecordInput)
    (st1 : LoggerState) (h : log_attack_event st i = .error st1) :
    st1 = st := by
  simp only [log_attack_event] at h
  split at h
  · simpa using h.symm
  · simp at h

theorem log_ok_status (st : LoggerState) (i : RecordInput) (e : AttackEvent)
    (st1 : LoggerState) (h : log_attack_event st i = .ok (e, st1))
    (hts : ¬ i.nowTs.isEmpty) :
    ((loadSystemStatus st1).status = (loadSystemStatus st).status ∧
     (loadSystemStatus st1).total_attacks
       = (loadSystemStatus st).total_attacks) ∨
    ((loadSystemStatus st1).status = "UNDER_ATTACK" ∧
     (loadSystemStatus st1).total_attacks
       = (loadSystemStatus st).total_attacks + 1) := by
  simp only [log_attack_event] at h
  split at h
  · simp at h
  · rename_i stA hs
    simp only [Except.ok.injEq, Prod.mk.injEq] at h
    obtain ⟨he, hst⟩ := h
    subst hst
    obtain ⟨hc, hsf, hss, _⟩ := save_ok_spec st i.saveEventOk _ stA hs
    have hload : loadSystemStatus stA = loadSystemStatus st :=
      loadSystemStatus_congr _ _ hsf hss
    rw [loadSystemStatus_bump]
    cases hok : i.saveStatusOk with
    | false =>
      left
      simp only [update_system_status, saveSystemStatus, hok,
        Bool.false_eq_true, if_false, hload, and_self]
    | true =>
      right
      have hts2 : (buildEvent st i).timestamp.isEmpty = false := by
        simpa [buildEvent] using hts
      have hsave : ∀ s : SystemStatus,
          loadSystemStatus (saveSystemStatus stA true s) = s := fun _ => rfl
      simp only [update_system_status, hts2, Bool.false_eq_true, if_false,
        hsave, hload]
      exact ⟨trivial, trivial⟩

/-- C3: every AuditTrail operation preserves the invariant that the status
record reads UNDER_ATTACK exactly when its attack total since the last
reset is positive (together with nonnegativity of the total, which holds
of every record the system writes); the record returned by GetStatus
satisfies the same invariant. -/
theorem claim_C3_invariant (st : LoggerState) (i : RecordInput)
    (unlinkOk saveOk active : Bool) (now : Int)
    (hts : ¬ i.nowTs.isEmpty)
    (hinv : (loadSystemStatus st).status = "UNDER_ATTACK" ↔
              0 < (loadSystemStatus st).total_attacks)
    (hnn : 0 ≤ (loadSystemStatus st).total_attacks) :
    (((loadSystemStatus (stateAfterRecord st i)).status = "UNDER_ATTACK" ↔
        0 < (loadSystemStatus (stateAfterRecord st i)).total_attacks) ∧
      0 ≤ (loadSystemStatus (stateAfterRecord st i)).total_attacks) ∧
    (((loadSystemStatus (reset_system st unlinkOk saveOk now).2).status
          = "UNDER_ATTACK" ↔
        0 < (loadSystemStatus
          (reset_system st unlinkOk saveOk now).2).total_attacks) ∧
      0 ≤ (loadSystemStatus
        (reset_system st unlinkOk saveOk now).2).total_attacks) ∧
    (((loadSystemStatus (set_monitoring_status st saveOk active)).status
          = "UNDER_ATTACK" ↔
        0 < (loadSystemStatus
          (set_monitoring_status st saveOk active)).total_attacks) ∧
      0 ≤ (loadSystemStatus
        (set_monitoring_status st saveOk active)).total_attacks) ∧
    ((get_system_status st now).status = "UNDER_ATTACK" ↔
        0 < (get_system_status st now).total_attacks) := by
  refine ⟨?_, ?_, ?_, ?_⟩
  · unfold stateAfterRecord
    cases hl : log_attack_event st i with
    | error st1 =>
      rw [log_error_spec st i st1 hl]
      exact ⟨hinv, hnn⟩
    | ok p =>
      obtain ⟨e, st1⟩ := p
      rcases log_ok_status st i e st1 hl hts with ⟨h1, h2⟩ | ⟨h1, h2⟩
      · rw [h1, h2]
        exact ⟨hinv, hnn⟩
      · rw [h1, h2]
        constructor
        · constructor
          · intro _; omega
          · intro _; rfl
        · omega
  · unfold reset_system resetTail saveSystemStatus
    cases hA : st.attacksFile <;> cases unlinkOk <;> cases saveOk <;>
      simp_all [loadSystemStatus, defaultStatus] <;>
      cases hS : st.statusFile <;> simp_all
  · unfold set_monitoring_status saveSystemStatus
    cases saveOk with
    | false => exact ⟨hinv, hnn⟩
    | true => simpa [loadSystemStatus] using ⟨hinv, hnn⟩
  · simpa [get_system_status] using hinv

/-- Witness for the status-invariant theorem on a fresh instance and one
completed RecordEvent call. -/
theorem claim_C3_invariant_witness :
    (¬ (sampleInput "/t/a.txt" "ta" true true).nowTs.isEmpty ∧
     ((loadSystemStatus (initLogger .absent .absent 0 true)).status
         = "UNDER_ATTACK" ↔
       0 < (loadSystemStatus (initLogger .absent .absent 0 true)).total_attacks) ∧
     0 ≤ (loadSystemStatus (initLogger .absent .absent 0 true)).total_attacks) ∧
    ((loadSystemStatus (stateAfterRecord (initLogger .absent .absent 0 true)
          (sampleInput "/t/a.txt" "ta" true true))).status = "UNDER_ATTACK" ↔
      0 < (loadSystemStatus (stateAfterRecord (initLogger .absent .absent 0 true)
          (sampleInput "/t/a.txt" "ta" true true))).total_attacks) := by
  refine ⟨⟨by decide, by decide, by decide⟩, ?_⟩
  exact (claim_C3_invariant (initLogger .absent .absent 0 true)
    (sampleInput "/t/a.txt" "ta" true true) true true true 0
    (by decide) (by decide) (by decide)).1.1

/-! Reset semantics. -/

theorem reset_cases (st : LoggerState) (unlinkOk saveOk : Bool) (now : Int) :
    (st.attacksFile ≠ .absent ∧ unlinkOk = false ∧
      reset_system st unlinkOk saveOk now = (false, st)) ∨
    (reset_system st unlinkOk saveOk now =
      (true, { attacksFile := .absent,
               statusFile := if saveOk then .present (defaultStatus now)
                             else st.statusFile,
               attack_counter := 1, system_start_time := now })) := by
  unfold reset_system resetTail saveSystemStatus
  cases hA : st.attacksFile <;> cases unlinkOk <;> cases saveOk <;>
    simp [hA]

/-- C4 (amended): after Reset() returns true the store is empty and the
identifier counter is back at 1, so the next completed RecordEvent
allocates the first identifier again; provided the status write succeeded,
GetStatus() then reports SAFE with zero attacks, no last attack, monitoring
inactive and the uptime baseline reset to the reset instant. Reset()
returns false only when the persisted event store exists and could not be
removed, and then the state is left entirely untouched. -/
theorem claim_C4_reset (st : LoggerState) (unlinkOk saveOk : Bool)
    (now now2 : Int) (i : RecordInput) :
    ((reset_system st unlinkOk saveOk now).1 = true →
      get_all_attacks (reset_system st unlinkOk saveOk now).2 = [] ∧
      (reset_system st unlinkOk saveOk now).2.attack_counter = 1 ∧
      (saveOk = true →
        get_system_status (reset_system st unlinkOk saveOk now).2 now2
          = ⟨"SAFE", none, 0, false, now2 - now, now⟩) ∧
      (∀ e st1,
        log_attack_event (reset_system st unlinkOk saveOk now).2 i
            = .ok (e, st1) →
        e.attack_id = mkAttackId 1)) ∧
    ((reset_system st unlinkOk saveOk now).1 = false →
      (reset_system st unlinkOk saveOk now).2 = st ∧
      st.attacksFile ≠ .absent ∧ unlinkOk = false) := by
  rcases reset_cases st unlinkOk saveOk now with ⟨hne, hu, heq⟩ | heq <;>
    rw [heq]
  · exact ⟨fun h => absurd h (by simp), fun _ => ⟨rfl, hne, hu⟩⟩
  · refine ⟨fun _ => ⟨rfl, rfl, ?_, ?_⟩, fun h => absurd h (by simp)⟩
    · intro hs
      subst hs
      simp [get_system_status, loadSystemStatus, defaultStatus]
    · intro e st1 h
      exact (log_ok_spec _ i e st1 h).1

/-- C4 counterexample: from an attacked state, a Reset whose status-record
write fails (the source swallows that failure) still returns true, yet
GetStatus afterwards reports UNDER_ATTACK, not SAFE. -/
theorem claim_C4_counterexample :
    (reset_system recordedSampleState true false 5).1 = true ∧
    (get_system_status
        (reset_system recordedSampleState true false 5).2 5).status
      = "UNDER_ATTACK" := by
  decide

/-- Witness for the reset theorem at a concrete attacked state with all
writes succeeding. -/
theorem claim_C4_reset_witness :
    (reset_system recordedSampleState true true 5).1 = true ∧
    (get_all_attacks (reset_system recordedSampleState true true 5).2 = [] ∧
     (reset_system recordedSampleState true true 5).2.attack_counter = 1 ∧
     get_system_status (reset_system recordedSampleState true true 5).2 9
       = ⟨"SAFE", none, 0, false, 4, 5⟩) := by
  have h := (claim_C4_reset recordedSampleState true true 5 9
    (sampleInput "/t/a.txt" "ta" true true)).1 (by decide)
  exact ⟨by decide, h.1, h.2.1, by simpa using h.2.2.1 rfl⟩

/-! Recent-event queries: ordering, bounds, and raw slice semantics. -/

theorem mem_insertDesc (x z : AttackEvent) (l : List AttackEvent) :
    z ∈ insertDesc x l ↔ z = x ∨ z ∈ l := by
  induction l with
  | nil => simp [insertDesc]
  | cons y ys ih =>
    by_cases h : tsDescLe x y
    · simp [insertDesc, h]
    · simp only [insertDesc, if_neg h, List.mem_cons, ih]
      tauto

theorem pairwise_insertDesc (x : AttackEvent) (l : List AttackEvent)
    (h : l.Pairwise (fun a b => b.timestamp ≤ a.timestamp)) :
    (insertDesc x l).Pairwise (fun a b => b.timestamp ≤ a.timestamp) := by
  induction l with
  | nil => simp [insertDesc]
  | cons y ys ih =>
    rw [List.pairwise_cons] at h
    obtain ⟨hy, hys⟩ := h
    by_cases htest : tsDescLe x y
    · have hxy : y.timestamp ≤ x.timestamp := of_decide_eq_true htest
      rw [insertDesc, if_pos htest, List.pairwise_cons]
      refine ⟨?_, List.pairwise_cons.mpr ⟨hy, hys⟩⟩
      intro z hz
      rcases List.mem_cons.mp hz with hzy | hzys
      · rw [hzy]; exact hxy
      · exact le_trans (hy z hzys) hxy
    · have hyx : x.timestamp ≤ y.timestamp :=
        le_of_not_le (fun hc => htest (decide_eq_true hc))
      rw [insertDesc, if_neg htest, List.pairwise_cons]
      refine ⟨?_, ih hys⟩
      intro z hz
      rcases (mem_insertDesc x z ys).mp hz with hzx | hzys
      · rw [hzx]; exact hyx
      · exact hy z hzys

theorem sortDesc_pairwise (l : List AttackEvent) :
    (sortDesc l).Pairwise (fun a b => b.timestamp ≤ a.timestamp) := by
  induction l with
  | nil => simp [sortDesc]
  | cons x xs ih => exact pairwise_insertDesc x (sortDesc xs) ih

theorem pySliceTo_is_take {α : Type} (l : List α) (i : Int) :
    pySliceTo l i = l.take (if 0 ≤ i then i.toNat else l.length - i.natAbs) := by
  unfold pySliceTo
  by_cases h : 0 ≤ i <;> simp [h]

theorem get_recent_present (st : LoggerState) (l : List AttackEvent)
    (limit : Int) (hA : st.attacksFile = .present l) :
    get_recent_attacks st limit = pySliceTo (sortDesc l) limit := by
  unfold get_recent_attacks
  rw [hA]

theorem get_recent_not_present (st : LoggerState) (limit : Int)
    (hA : st.attacksFile = .absent ∨ st.attacksFile = .corrupt) :
    get_recent_attacks st limit = [] := by
  unfold get_recent_attacks
  rcases hA with h | h <;> rw [h]

theorem apiRecentLimit_invalid (w : Int) (hw : w < 1 ∨ 100 < w) :
    apiRecentLimit (some w) = 10 := by
  show (if w < 1 ∨ w > 100 then (10 : Int) else w) = 10
  rw [if_pos (by omega)]

theorem apiRecentLimit_valid (v : Int) (h1 : 1 ≤ v) (h2 : v ≤ 100) :
    apiRecentLimit (some v) = v := by
  show (if v < 1 ∨ v > 100 then (10 : Int) else v) = v
  rw [if_neg (by omega)]

theorem get_recent_sorted (st : LoggerState) (limit : Int) :
    (get_recent_attacks st limit).Pairwise
      (fun a b => b.timestamp ≤ a.timestamp) := by
  cases hA : st.attacksFile with
  | present l =>
    rw [get_recent_present st l limit hA, pySliceTo_is_take]
    exact List.Pairwise.sublist (List.take_sublist _ _) (sortDesc_pairwise l)
  | absent => rw [get_recent_not_present st limit (Or.inl hA)]; simp
  | corrupt => rw [get_recent_not_present st limit (Or.inr hA)]; simp

/-- C5: the API route behind GetRecent treats a missing, non-numeric or
out-of-range limit as 10, and for a valid limit returns at most that many
events, ordered by timestamp descending (most recent first). -/
theorem claim_C5_api_limit (st : LoggerState) (v : Int)
    (h1 : 1 ≤ v) (h2 : v ≤ 100) :
    (∀ w : Int, (w < 1 ∨ 100 < w) →
        apiGetRecent st (some w) = apiGetRecent st (some 10)) ∧
    apiGetRecent st none = apiGetRecent st (some 10) ∧
    ((apiGetRecent st (some v)).length : Int) ≤ v ∧
    (apiGetRecent st (some v)).Pairwise
      (fun a b => b.timestamp ≤ a.timestamp) := by
  refine ⟨?_, rfl, ?_, ?_⟩
  · intro w hw
    unfold apiGetRecent
    rw [apiRecentLimit_invalid w hw,
      apiRecentLimit_valid 10 (by omega) (by omega)]
  · unfold apiGetRecent
    rw [apiRecentLimit_valid v h1 h2]
    cases hA : st.attacksFile with
    | present l =>
      rw [get_recent_present st l v hA, pySliceTo_is_take, if_pos (by omega)]
      calc ((List.take v.toNat (sortDesc l)).length : Int)
          ≤ (v.toNat : Int) := by
            exact_mod_cast List.length_take_le v.toNat (sortDesc l)
        _ = v := Int.toNat_of_nonneg (by omega)
    | absent => rw [get_recent_not_present st v (Or.inl hA)]; simp; omega
    | corrupt => rw [get_recent_not_present st v (Or.inr hA)]; simp; omega
  · exact get_recent_sorted st (apiRecentLimit (some v))

/-- Witness for the API limit theorem at limit 1 on a two-event store. -/
theorem claim_C5_api_limit_witness :
    ((1 : Int) ≤ 1 ∧ (1 : Int) ≤ 100) ∧
    apiGetRecent
        ⟨.present [sampleEvent "t1" "ATK_001", sampleEvent "t2" "ATK_002"],
         .absent, 3, 0⟩ none
      = apiGetRecent
        ⟨.present [sampleEvent "t1" "ATK_001", sampleEvent "t2" "ATK_002"],
         .absent, 3, 0⟩ (some 10) ∧
    ((apiGetRecent
        ⟨.present [sampleEvent "t1" "ATK_001", sampleEvent "t2" "ATK_002"],
         .absent, 3, 0⟩ (some 1)).length : Int) ≤ 1 := by
  have h := claim_C5_api_limit
    ⟨.present [sampleEvent "t1" "ATK_001", sampleEvent "t2" "ATK_002"],
     .absent, 3, 0⟩ 1 (by decide) (by decide)
  exact ⟨⟨by decide, by decide⟩, h.2.1, h.2.2.1⟩

/-- C10: get_recent_attacks performs no clamping or defaulting itself:
limit 0 yields the empty list, a negative limit yields the
descending-sorted store with its last n entries removed (Python slice
semantics), and the 1..100 clamp with default 10 lives only in the API
route, which maps the out-of-range limit 0 to 10 before delegating. -/
theorem claim_C10_raw_slice (st : LoggerState) (l : List AttackEvent)
    (hA : st.attacksFile = .present l) (n : Nat) (hn : 0 < n) :
    get_recent_attacks st 0 = [] ∧
    get_recent_attacks st (-(n : Int))
      = ((sortDesc l).reverse.drop n).reverse ∧
    apiGetRecent st (some 0) = get_recent_attacks st 10 := by
  refine ⟨?_, ?_, rfl⟩
  · rw [get_recent_present st l 0 hA, pySliceTo_is_take]
    simp
  · rw [get_recent_present st l (-(n : Int)) hA, pySliceTo_is_take,
      if_neg (by omega)]
    rw [show (-(n : Int)).natAbs = n by omega]
    rw [List.reverse_drop]
    simp

/-- Witness for the raw slice theorem: on a concrete two-event store,
limit 0 returns nothing and limit -1 drops the oldest entry. -/
theorem claim_C10_raw_slice_witness :
    ((⟨.present [sampleEvent "t1" "ATK_001", sampleEvent "t2" "ATK_002"],
        .absent, 3, 0⟩ : LoggerState).attacksFile
      = .present [sampleEvent "t1" "ATK_001", sampleEvent "t2" "ATK_002"] ∧
      (0 : Nat) < 1) ∧
    get_recent_attacks
      ⟨.present [sampleEvent "t1" "ATK_001", sampleEvent "t2" "ATK_002"],
       .absent, 3, 0⟩ 0 = [] := by
  exact ⟨⟨rfl, by decide⟩,
    (claim_C10_raw_slice
      ⟨.present [sampleEvent "t1" "ATK_001", sampleEvent "t2" "ATK_002"],
       .absent, 3, 0⟩
      [sampleEvent "t1" "ATK_001", sampleEvent "t2" "ATK_002"]
      rfl 1 (by decide)).1⟩

/-! Load-failure behaviour of GetStatus. -/

/-- C6 (amended): when the status record cannot be loaded, GetStatus
returns a fresh SAFE record (zero attacks, no last attack, monitoring
inactive) instead of propagating the error, but its uptimeSeconds field is
recomputed in real time as now minus the instance start time, so it is 0
only at the instant the instance started. -/
theorem claim_C6_load_failure (st : LoggerState) (now : Int)
    (h : st.statusFile = .corrupt ∨ st.statusFile = .absent) :
    get_system_status st now
      = ⟨"SAFE", none, 0, false, now - st.system_start_time,
         st.system_start_time⟩ := by
  unfold get_system_status loadSystemStatus
  rcases h with h | h <;> rw [h] <;> rfl

/-- C6 counterexample: five seconds after an instance with an unreadable
status file started, GetStatus returns SAFE but with uptimeSeconds 5,
not 0. -/
theorem claim_C6_counterexample :
    (get_system_status ⟨.absent, .corrupt, 1, 0⟩ 5).status = "SAFE" ∧
    (get_system_status ⟨.absent, .corrupt, 1, 0⟩ 5).uptime_seconds = 5 ∧
    (get_system_status ⟨.absent, .corrupt, 1, 0⟩ 5).uptime_seconds ≠ 0 := by
  decide

/-- Witness for the load-failure theorem at a concrete corrupt status
file. -/
theorem claim_C6_load_failure_witness :
    ((⟨.absent, .corrupt, 1, 0⟩ : LoggerState).statusFile = .corrupt ∨
     (⟨.absent, .corrupt, 1, 0⟩ : LoggerState).statusFile = .absent) ∧
    get_system_status ⟨.absent, .corrupt, 1, 0⟩ 5
      = ⟨"SAFE", none, 0, false, 5 - 0, 0⟩ :=
  ⟨Or.inl rfl,
   claim_C6_load_failure ⟨.absent, .corrupt, 1, 0⟩ 5 (Or.inl rfl)⟩

/-! Error propagation out of RecordEvent. -/

theorem log_ok_event (st : LoggerState) (i : RecordInput) (e : AttackEvent)
    (st1 : LoggerState) (h : log_attack_event st i = .ok (e, st1)) :
    e = buildEvent st i := by
  simp only [log_attack_event] at h
  split at h
  · simp at h
  · simp only [Except.ok.injEq, Prod.mk.injEq] at h
    exact h.1.symm

theorem save_fails (st : LoggerState) (ok : Bool) (e : AttackEvent)
    (h : ok = false ∨ st.attacksFile = .corrupt) :
    save_attack_event st ok e = .error () := by
  unfold save_attack_event
  rcases h with h | h
  · subst h
    cases st.attacksFile <;> simp
  · rw [h]

/-- C7 (amended): RecordEvent absorbs actor-lookup failures, degrading all
actor fields to Unknown instead of raising, and the read operations absorb
corrupt-store failures by returning empty results; but a failure to append
to the event store (including a corrupt store) is re-raised out of
RecordEvent rather than absorbed, leaving the state unchanged; Reset
surfaces failure as its boolean result. -/
theorem claim_C7_propagation (st : LoggerState) (i : RecordInput)
    (hproc : i.process_info = none) :
    (∀ e st1, log_attack_event st i = .ok (e, st1) →
      e.process_name = "Unknown" ∧ e.process_id = "Unknown" ∧
      e.username = "Unknown" ∧ e.command_line = "Unknown") ∧
    ((i.saveEventOk = false ∨ st.attacksFile = .corrupt) →
      log_attack_event st i = .error st) ∧
    (st.attacksFile = .corrupt →
      get_recent_attacks st 10 = [] ∧ get_all_attacks st = []) := by
  refine ⟨?_, ?_, ?_⟩
  · intro e st1 h
    rw [log_ok_event st i e st1 h]
    simp [buildEvent, hproc, unknownProcessInfo]
  · intro hfail
    have hsave := save_fails st i.saveEventOk (buildEvent st i) hfail
    simp only [log_attack_event, hsave]
  · intro hcor
    refine ⟨get_recent_not_present st 10 (Or.inr hcor), ?_⟩
    unfold get_all_attacks
    rw [hcor]

/-- C7 counterexample: a failing event-store write makes RecordEvent raise
the failure to its caller instead of absorbing it. -/
theorem claim_C7_counterexample :
    log_attack_event recordedSampleState
        (sampleInput "/t/b.txt" "tb" false true)
      = .error recordedSampleState := by
  rfl

/-- Witness for the propagation theorem at a corrupt store: the append
raises out of RecordEvent. -/
theorem claim_C7_propagation_witness :
    ((sampleInput "/x" "t" true true).process_info = none ∧
     ((sampleInput "/x" "t" true true).saveEventOk = false ∨
      (⟨.corrupt, .absent, 1, 0⟩ : LoggerState).attacksFile = .corrupt)) ∧
    log_attack_event ⟨.corrupt, .absent, 1, 0⟩
        (sampleInput "/x" "t" true true)
      = .error ⟨.corrupt, .absent, 1, 0⟩ :=
  ⟨⟨rfl, Or.inr rfl⟩,
   (claim_C7_propagation ⟨.corrupt, .absent, 1, 0⟩
     (sampleInput "/x" "t" true true) rfl).2.1 (Or.inr rfl)⟩

/-! Supervisor health derivation. -/

/-- C8 (amended): when the supervisor is monitoring and its error count
exceeds 3, GetStatus reports healthStatus unhealthy provided no (truthy)
last error is recorded; a recorded last error takes precedence in the
derivation and yields degraded instead. -/
theorem claim_C8_health (s : MonitorState)
    (hmon : s.is_monitoring = true) (hcnt : 3 < s.error_count) :
    (pyTruthyStr s.last_error = false → get_health_status s = "unhealthy") ∧
    (pyTruthyStr s.last_error = true → get_health_status s = "degraded") := by
  unfold get_health_status
  constructor <;> intro h <;> simp [hmon, h, hcnt]

/-- C8 counterexample: monitoring with error count 4 and a recorded last
error reports degraded, not unhealthy. -/
theorem claim_C8_counterexample :
    get_health_status ⟨true, true, 0, 5, 1, some "watchdog error", 4⟩
        = "degraded" ∧
    get_health_status ⟨true, true, 0, 5, 1, some "watchdog error", 4⟩
        ≠ "unhealthy" := by
  decide

/-- Witness for the health theorem: monitoring, error count 4, no last
error reports unhealthy. -/
theorem claim_C8_health_witness :
    ((⟨true, true, 0, 5, 1, none, 4⟩ : MonitorState).is_monitoring = true ∧
     3 < (⟨true, true, 0, 5, 1, none, 4⟩ : MonitorState).error_count ∧
     pyTruthyStr (⟨true, true, 0, 5, 1, none, 4⟩ : MonitorState).last_error
       = false) ∧
    get_health_status ⟨true, true, 0, 5, 1, none, 4⟩ = "unhealthy" :=
  ⟨⟨rfl, by decide, rfl⟩,
   (claim_C8_health ⟨true, true, 0, 5, 1, none, 4⟩ rfl (by decide)).1 rfl⟩

/-! Supervisor restart budget. -/

/-- C9 (amended): restart attempts are budgeted (default 5), but only a
successful Restart() counts toward the budget, doubling the backoff delay
capped at 60; a failed restart attempts a start yet leaves the counter
unchanged. Once the counter has reached the budget, Restart() returns
failure immediately, without attempting a stop or start and with the state
untouched. -/
theorem claim_C9_restart_budget (s : MonitorState) (startOk : Bool) :
    initMonitorState.max_restarts = 5 ∧
    (s.max_restarts ≤ s.restart_count →
      restart_monitoring s startOk = ⟨false, false, s⟩) ∧
    (s.restart_count < s.max_restarts → startOk = true →
      (restart_monitoring s startOk).success = true ∧
      (restart_monitoring s startOk).startAttempted = true ∧
      (restart_monitoring s startOk).state.restart_count
        = s.restart_count + 1 ∧
      (restart_monitoring s startOk).state.restart_delay
        = min (s.restart_delay * 2) 60) ∧
    (s.restart_count < s.max_restarts → startOk = false →
      (restart_monitoring s startOk).success = false ∧
      (restart_monitoring s startOk).startAttempted = true ∧
      (restart_monitoring s startOk).state.restart_count
        = s.restart_count) := by
  refine ⟨rfl, ?_, ?_, ?_⟩
  · intro h
    unfold restart_monitoring
    rw [if_pos h]
  · intro h hok
    subst hok
    have hc : ¬ s.max_restarts ≤ s.restart_count := by omega
    simp [restart_monitoring, hc, stopEffect, startEffect]
  · intro h hok
    subst hok
    have hc : ¬ s.max_restarts ≤ s.restart_count := by omega
    simp [restart_monitoring, hc, stopEffect, startEffect]

/-- C9 counterexample: a failed restart from a fresh supervisor attempts a
start but does not count toward the restart budget, so not every Restart()
call counts. -/
theorem claim_C9_counterexample :
    (restart_monitoring initMonitorState false).startAttempted = true ∧
    (restart_monitoring initMonitorState false).state.restart_count
      = initMonitorState.restart_count := by
  decide

/-- Witness for the restart-budget theorem at an exhausted budget. -/
theorem claim_C9_restart_budget_witness :
    ({ initMonitorState with restart_count := 5 } : MonitorState).max_restarts
      ≤ ({ initMonitorState with restart_count := 5 } : MonitorState).restart_count ∧
    restart_monitoring { initMonitorState with restart_count := 5 } true
      = ⟨false, false, { initMonitorState with restart_count := 5 }⟩ :=
  ⟨by decide,
   (claim_C9_restart_budget { initMonitorState with restart_count := 5 }
     true).2.1 (by decide)⟩

end Audit
